import Mathlib

/-
Verification of the `postpone` package: a deferred-initialization wrapper
around a readable, seekable data source.

The Go source (postpone.go, most recent revision) is shallowly embedded
below.  External collaborators are modelled explicitly:

* `GoError` stands for Go `error` values; `Option GoError` is a possibly
  nil error (`none` = nil).
* `RS` models an `io.ReadSeeker`: either `bytes.Reader` over an in-memory
  buffer (`RS.mem`, the adapter the preload strategies build) or an
  externally supplied stream described by the finite script of results
  its successive Read and Seek calls will return (`RS.ext`).
* `Src` models an `io.Reader` source as the chunks its successive reads
  will deliver, followed by either clean end-of-data (`fin = none`) or an
  error (`fin = some e`); `closeable` says whether it also implements
  `io.Closer`.  Draining mutates the source, so `ReadAll` returns the
  consumed source alongside the data.
* Observable side effects (factory invocations, drains, closes) are
  returned as an `Event` log so that at-most-once / never / ordering
  properties can be stated over operation sequences.
* Factories (`func() (io.ReadSeeker, error)` / `func() (io.Reader, error)`)
  are deterministic zero-argument functions, so they are modelled by the
  pair their single invocation returns; a `nil` function field is `none`.
-/

/-- Go `error` values.  `eof` is `io.EOF`; `msg` is an `errors.New`-style
error; `comb` is the composite an error-merging combinator builds from two
non-nil errors; `nilDeref` marks the nil-pointer dereference Go would
panic with if `p.rs.Read` ran on a nil `rs` (unreachable in practice). -/
inductive GoError where
  | eof
  | msg (s : String)
  | comb (live remembered : GoError)
  | nilDeref
deriving DecidableEq, Repr

/-- Modelled from the spec: the error-merging combinator
`errlist.NewError(live).AddError(remembered).Err()` from the external
errlist package (not part of this repository's source).  Per the spec's
"Error merging" design: a single composite error value if both are
non-nil, the live one if only it is non-nil, the remembered one if only
it is set, nil if neither. -/
def mergeErr : Option GoError → Option GoError → Option GoError
  | none, none => none
  | some e, none => some e
  | none, some e => some e
  | some a, some b => some (GoError.comb a b)

/-- An `io.ReadSeeker`.  `mem data pos` is `bytes.NewReader data` with
current offset `pos` (an `int64` in Go, hence `Int`: Seek may place it
beyond the end).  `ext reads seeks` is an arbitrary external seekable
stream given by the scripted results of its future Read and Seek calls;
once a script is exhausted the stream reports end-of-data on Read and a
zero position on Seek. -/
inductive RS where
  | mem (data : List Nat) (pos : Int)
  | ext (reads : List (List Nat × Option GoError)) (seeks : List (Int × Option GoError))
deriving DecidableEq, Repr

/-- `rs.Read(buf)` with a caller buffer of size `n`: returns the bytes
written into the buffer, the error, and the stream afterwards.
For `mem` this is `bytes.Reader.Read`: EOF at or past the end, otherwise
copy up to `n` bytes and advance. -/
def RS.Read : RS → Nat → List Nat × Option GoError × RS
  | RS.mem data pos, n =>
      if (data.length : Int) ≤ pos then ([], some GoError.eof, RS.mem data pos)
      else
        let bs := (data.drop pos.toNat).take n
        (bs, none, RS.mem data (pos + bs.length))
  | RS.ext reads seeks, n =>
      match reads with
      | [] => ([], some GoError.eof, RS.ext [] seeks)
      | (bs, e) :: rest => (bs.take n, e, RS.ext rest seeks)

/-- `rs.Seek(offset, whence)`: returns the new absolute position, the
error, and the stream afterwards.  For `mem` this is `bytes.Reader.Seek`:
whence 0/1/2 = start/current/end, negative target position is an error. -/
def RS.Seek : RS → Int → Nat → Int × Option GoError × RS
  | RS.mem data pos, off, whence =>
      if 2 < whence then
        (0, some (GoError.msg "bytes.Reader.Seek: invalid whence"), RS.mem data pos)
      else
        let base : Int := if whence = 0 then 0 else if whence = 1 then pos else (data.length : Int)
        let npos := base + off
        if npos < 0 then
          (0, some (GoError.msg "bytes.Reader.Seek: negative position"), RS.mem data pos)
        else (npos, none, RS.mem data npos)
  | RS.ext reads seeks, _, _ =>
      match seeks with
      | [] => (0, none, RS.ext reads [])
      | (r, e) :: rest => (r, e, RS.ext reads rest)

/-- An `io.Reader` source: `rem` are the chunks its future reads deliver
in order; after they are exhausted it reports `fin` (`none` = clean
end-of-data, `some e` = a read error partway); `closeable` says whether it
also implements `io.Closer`. -/
structure Src where
  rem : List (List Nat)
  fin : Option GoError
  closeable : Bool
deriving DecidableEq, Repr

/-- `ioutil.ReadAll(s)`: reads `s` to completion, returning all data read
before end-of-data or the error, the error (`none` when the source ended
cleanly — ReadAll does not report EOF as an error), and the consumed
source. -/
def ReadAll (s : Src) : List Nat × Option GoError × Src :=
  (s.rem.flatten, s.fin, { s with rem := [] })

/-- Observable side effects of the handle, in the order they occur:
invoking one of the two factory fields, draining a source with ReadAll
(recording what the drain produced), and calling `Close` on a source
(emitted only when the source actually implements `io.Closer`, matching
the `r.(io.Closer)` type assertion). -/
inductive Event where
  | invokeGetr
  | invokeGetrs
  | drain (bytes : List Nat) (err : Option GoError)
  | closeSrc
deriving DecidableEq, Repr

/-- The `Postpone` struct, field for field:
`r` the direct reader, `rs` the acquired ReadSeeker, `getr` / `getrs` the
two factory fields (each modelled by the pair it returns when invoked,
`none` when the field is nil), `err` the remembered error, `loaded` the
acquired flag, `c` the close-after-read flag, `bad` the failed flag. -/
structure Postpone where
  r : Option Src
  rs : Option RS
  getr : Option (Option Src × Option GoError)
  getrs : Option (Option RS × Option GoError)
  err : Option GoError
  loaded : Bool
  c : Bool
  bad : Bool
deriving DecidableEq, Repr

/-- `NewFunc(r, c)` = `&Postpone{nil, nil, nil, r, nil, false, c, false}`. -/
def NewFunc (f : Option RS × Option GoError) (c : Bool) : Postpone :=
  ⟨none, none, none, some f, none, false, c, false⟩

/-- `NewFuncPre(r, c)` = `&Postpone{nil, nil, r, nil, nil, false, c, false}`. -/
def NewFuncPre (f : Option Src × Option GoError) (c : Bool) : Postpone :=
  ⟨none, none, some f, none, none, false, c, false⟩

/-- `NewReader(r, c)` = `&Postpone{r, nil, nil, nil, nil, false, c, false}`. -/
def NewReader (r : Option Src) (c : Bool) : Postpone :=
  ⟨r, none, none, none, none, false, c, false⟩

/-- `NewFile(file)`: wraps `os.Open` in a seekable factory and calls
`NewFunc(_, false)`.  The factory returns either `(nil, err)` when the
open fails or `(f, nil)` on success, so it is parametrized by the
filesystem's answer for the path. -/
def NewFile (openResult : Except GoError RS) : Postpone :=
  NewFunc
    (match openResult with
      | Except.error e => (none, some e)
      | Except.ok f => (some f, none))
    false

/-- `NewFilePre(file)`: wraps `os.Open` in a reader factory and calls
`NewFuncPre(_, true)`. -/
def NewFilePre (openResult : Except GoError Src) : Postpone :=
  NewFuncPre
    (match openResult with
      | Except.error e => (none, some e)
      | Except.ok f => (some f, none))
    true

/-- `(*Postpone).retreive` (spelling kept from the source), returning the
new state and the event log of the call.  Branches in source order:
1. `getrs != nil`: invoke it, clear it, store its stream and error, mark
   failed iff the stream is nil.
2. `getr != nil`: invoke it, clear it; on a nil reader or non-nil error
   mark failed; otherwise drain the reader with ReadAll, remember the
   drain error and wrap the buffer in `bytes.NewReader`.  Afterwards (in
   either case) close the returned reader if `c` is set and it is a
   Closer.
3. otherwise: a nil `r` marks failed; else drain `r`, remember the drain
   error, wrap the buffer, and close `r` if `c` is set and it is a
   Closer.  (`r` is a stateful object, so the consumed source is stored
   back into the `r` field.)
Finally `loaded` is set unconditionally. -/
def Postpone.retreive (p : Postpone) : Postpone × List Event :=
  match p.getrs with
  | some (ro, eo) =>
      ({ p with rs := ro, err := eo, getrs := none,
                bad := if ro.isNone then true else p.bad, loaded := true },
       [Event.invokeGetrs])
  | none =>
    match p.getr with
    | some (so, eo) =>
        let closeEvs : List Event :=
          match so with
          | some s => if p.c && s.closeable then [Event.closeSrc] else []
          | none => []
        (match so, eo with
          | some s, none =>
              let (buf, e, _) := ReadAll s
              ({ p with err := e, rs := some (RS.mem buf 0), getr := none, loaded := true },
               [Event.invokeGetr, Event.drain buf e] ++ closeEvs)
          | _, _ =>
              ({ p with err := eo, getr := none, bad := true, loaded := true },
               [Event.invokeGetr] ++ closeEvs))
    | none =>
      match p.r with
      | none => ({ p with bad := true, loaded := true }, [])
      | some s =>
          let (buf, e, s2) := ReadAll s
          ({ p with err := e, rs := some (RS.mem buf 0), r := some s2, loaded := true },
           [Event.drain buf e] ++ (if p.c && s2.closeable then [Event.closeSrc] else []))

/-- `(*Postpone).Load`: calls `retreive` unconditionally (note: no
`loaded` guard in the source). -/
def Postpone.Load (p : Postpone) : Postpone × List Event :=
  p.retreive

/-- `(*Postpone).Loaded`. -/
def Postpone.Loaded (p : Postpone) : Bool :=
  p.loaded

/-- `(*Postpone).Read(buf)` with a caller buffer of size `n`: returns the
new state, the bytes written into the caller's buffer (empty = buffer
untouched), the returned error, and the event log. -/
def Postpone.Read (p : Postpone) (n : Nat) : Postpone × List Nat × Option GoError × List Event :=
  let pe := if p.loaded then (p, []) else p.retreive
  let p1 := pe.1
  if p1.bad then (p1, [], p1.err, pe.2)
  else
    match p1.rs with
    | none => (p1, [], some GoError.nilDeref, pe.2)
    | some rs =>
        let (bs, e, rs2) := RS.Read rs n
        ({ p1 with rs := some rs2 }, bs, mergeErr e p1.err, pe.2)

/-- `(*Postpone).Seek(offset, whence)`: returns the new state, the
returned position, the returned error, and the event log. -/
def Postpone.Seek (p : Postpone) (off : Int) (whence : Nat) :
    Postpone × Int × Option GoError × List Event :=
  let pe := if p.loaded then (p, []) else p.retreive
  let p1 := pe.1
  if p1.bad then (p1, 0, p1.err, pe.2)
  else
    match p1.rs with
    | none => (p1, 0, some GoError.nilDeref, pe.2)
    | some rs =>
        let (i, e, rs2) := RS.Seek rs off whence
        ({ p1 with rs := some rs2 }, i, mergeErr e p1.err, pe.2)

/-- One public operation on a handle. -/
inductive Op where
  | read (n : Nat)
  | seek (off : Int) (whence : Nat)
  | load
deriving DecidableEq, Repr

/-- Run one operation, keeping the new state and the event log. -/
def Postpone.step (p : Postpone) : Op → Postpone × List Event
  | Op.read n => ((p.Read n).1, (p.Read n).2.2.2)
  | Op.seek off w => ((p.Seek off w).1, (p.Seek off w).2.2.2)
  | Op.load => p.Load

/-- Run a sequence of operations, concatenating the event logs. -/
def runOps (p : Postpone) : List Op → Postpone × List Event
  | [] => (p, [])
  | op :: ops =>
      let (p1, e1) := p.step op
      let (p2, e2) := runOps p1 ops
      (p2, e1 ++ e2)

/-- Is this event a factory invocation? -/
def Event.isInvoke : Event → Bool
  | Event.invokeGetr => true
  | Event.invokeGetrs => true
  | Event.drain _ _ => false
  | Event.closeSrc => false

/-- Is this event a Close call on a source? -/
def Event.isClose : Event → Bool
  | Event.closeSrc => true
  | Event.invokeGetr => false
  | Event.invokeGetrs => false
  | Event.drain _ _ => false

/-- Number of factory invocations in an event log. -/
def countInvokes (evs : List Event) : Nat :=
  (evs.filter Event.isInvoke).length

/-- Number of Close calls in an event log. -/
def countClose (evs : List Event) : Nat :=
  (evs.filter Event.isClose).length

/-- Number of factory fields still held by the handle. -/
def factoryPotential (p : Postpone) : Nat :=
  (if p.getrs.isSome then 1 else 0) + (if p.getr.isSome then 1 else 0)

/-! ### Basic facts about the acquisition step -/

lemma countInvokes_nil : countInvokes [] = 0 := rfl

lemma countClose_nil : countClose [] = 0 := rfl

lemma countInvokes_append (a b : List Event) :
    countInvokes (a ++ b) = countInvokes a + countInvokes b := by
  simp [countInvokes, List.filter_append]

lemma countClose_append (a b : List Event) :
    countClose (a ++ b) = countClose a + countClose b := by
  simp [countClose, List.filter_append]

lemma retreive_loaded (p : Postpone) : ((p.retreive).1).loaded = true := by
  obtain ⟨r, rs, getr, getrs, err, loaded, c, bad⟩ := p
  rcases getrs with _ | ⟨ro, eo⟩
  · rcases getr with _ | ⟨so, eo⟩
    · rcases r with _ | s <;> rfl
    · rcases so with _ | s <;> rcases eo with _ | e <;> rfl
  · rfl

lemma retreive_getrs_none (p : Postpone) : ((p.retreive).1).getrs = none := by
  obtain ⟨r, rs, getr, getrs, err, loaded, c, bad⟩ := p
  rcases getrs with _ | ⟨ro, eo⟩
  · rcases getr with _ | ⟨so, eo⟩
    · rcases r with _ | s <;> rfl
    · rcases so with _ | s <;> rcases eo with _ | e <;> rfl
  · rfl

lemma retreive_bad (p : Postpone) :
    ((p.retreive).1).bad = true ∨ ((p.retreive).1).bad = p.bad := by
  obtain ⟨r, rs, getr, getrs, err, loaded, c, bad⟩ := p
  rcases getrs with _ | ⟨ro, eo⟩
  · rcases getr with _ | ⟨so, eo⟩
    · rcases r with _ | s
      · exact Or.inl rfl
      · exact Or.inr rfl
    · rcases so with _ | s
      · exact Or.inl rfl
      · rcases eo with _ | e
        · exact Or.inr rfl
        · exact Or.inl rfl
  · rcases ro with _ | rs0
    · exact Or.inl rfl
    · exact Or.inr rfl

lemma retreive_getr_none_pre (p : Postpone) (h : p.getr = none) :
    ((p.retreive).1).getr = none := by
  obtain ⟨r, rs, getr, getrs, err, loaded, c, bad⟩ := p
  rcases getr with _ | g
  · rcases getrs with _ | ⟨ro, eo⟩
    · rcases r with _ | s <;> rfl
    · rfl
  · exact Option.noConfusion h

lemma retreive_r_none_pre (p : Postpone) (h : p.r = none) :
    ((p.retreive).1).r = none := by
  obtain ⟨r, rs, getr, getrs, err, loaded, c, bad⟩ := p
  rcases r with _ | s
  · rcases getrs with _ | ⟨ro, eo⟩
    · rcases getr with _ | ⟨so, eo⟩
      · rfl
      · rcases so with _ | s0 <;> rcases eo with _ | e <;> rfl
    · rfl
  · exact Option.noConfusion h

lemma retreive_phi (p : Postpone) :
    countInvokes ((p.retreive).2) + factoryPotential ((p.retreive).1) ≤ factoryPotential p := by
  obtain ⟨r, rs, getr, getrs, err, loaded, c, bad⟩ := p
  rcases getrs with _ | ⟨ro, eo⟩
  · rcases getr with _ | ⟨so, eo⟩
    · rcases r with _ | s
      · simp [Postpone.retreive, countInvokes, factoryPotential]
      · rcases s with ⟨rem, fin, cl⟩
        cases c <;> cases cl <;>
          simp [Postpone.retreive, countInvokes, factoryPotential, Event.isInvoke, ReadAll,
            List.filter]
    · rcases so with _ | s
      · cases c <;>
          simp [Postpone.retreive, countInvokes, factoryPotential, Event.isInvoke, List.filter]
      · rcases s with ⟨rem, fin, cl⟩
        rcases eo with _ | e <;> cases c <;> cases cl <;>
          simp [Postpone.retreive, countInvokes, factoryPotential, Event.isInvoke, ReadAll,
            List.filter]
  · rcases getr with _ | g <;>
      simp [Postpone.retreive, countInvokes, factoryPotential, Event.isInvoke, List.filter]

lemma retreive_noclose (p : Postpone) (hg : p.getr = none) (hr : p.r = none) :
    countClose ((p.retreive).2) = 0 ∧ ((p.retreive).1).getr = none ∧
      ((p.retreive).1).r = none := by
  obtain ⟨r, rs, getr, getrs, err, loaded, c, bad⟩ := p
  rcases getr with _ | g
  · rcases r with _ | s
    · rcases getrs with _ | ⟨ro, eo⟩
      · exact ⟨rfl, rfl, rfl⟩
      · exact ⟨rfl, rfl, rfl⟩
    · exact Option.noConfusion hr
  · exact Option.noConfusion hg

lemma retreive_invokeGetr_clears (p : Postpone) (h : Event.invokeGetr ∈ (p.retreive).2) :
    ((p.retreive).1).getr = none := by
  obtain ⟨r, rs, getr, getrs, err, loaded, c, bad⟩ := p
  rcases getrs with _ | ⟨ro, eo⟩
  · rcases getr with _ | ⟨so, eo⟩
    · rcases r with _ | s
      · simp [Postpone.retreive] at h
      · rcases s with ⟨rem, fin, cl⟩
        cases c <;> cases cl <;> simp [Postpone.retreive, ReadAll] at h
    · rcases so with _ | s <;> rcases eo with _ | e <;> rfl
  · simp [Postpone.retreive] at h

/-! ### How one public operation relates to the acquisition step -/

lemma Read_cases (p : Postpone) (n : Nat) :
    (p.loaded = true ∧ (p.Read n).1.getrs = p.getrs ∧ (p.Read n).1.getr = p.getr ∧
      (p.Read n).1.r = p.r ∧ (p.Read n).1.bad = p.bad ∧ (p.Read n).1.loaded = p.loaded ∧
      (p.Read n).2.2.2 = []) ∨
    ((p.Read n).1.getrs = ((p.retreive).1).getrs ∧ (p.Read n).1.getr = ((p.retreive).1).getr ∧
      (p.Read n).1.r = ((p.retreive).1).r ∧ (p.Read n).1.bad = ((p.retreive).1).bad ∧
      (p.Read n).1.loaded = ((p.retreive).1).loaded ∧ (p.Read n).2.2.2 = (p.retreive).2) := by
  by_cases hl : p.loaded
  · left
    have hpe : (if p.loaded then (p, ([] : List Event)) else p.retreive) = (p, []) := by
      simp [hl]
    refine ⟨hl, ?_⟩
    simp only [Postpone.Read, hpe]
    split
    · exact ⟨rfl, rfl, rfl, rfl, rfl, rfl⟩
    · split
      · exact ⟨rfl, rfl, rfl, rfl, rfl, rfl⟩
      · exact ⟨rfl, rfl, rfl, rfl, rfl, rfl⟩
  · right
    have hpe : (if p.loaded then (p, ([] : List Event)) else p.retreive) = p.retreive := by
      simp [hl]
    simp only [Postpone.Read, hpe]
    split
    · exact ⟨rfl, rfl, rfl, rfl, rfl, rfl⟩
    · split
      · exact ⟨rfl, rfl, rfl, rfl, rfl, rfl⟩
      · exact ⟨rfl, rfl, rfl, rfl, rfl, rfl⟩

lemma Seek_cases (p : Postpone) (off : Int) (w : Nat) :
    (p.loaded = true ∧ (p.Seek off w).1.getrs = p.getrs ∧ (p.Seek off w).1.getr = p.getr ∧
      (p.Seek off w).1.r = p.r ∧ (p.Seek off w).1.bad = p.bad ∧
      (p.Seek off w).1.loaded = p.loaded ∧ (p.Seek off w).2.2.2 = []) ∨
    ((p.Seek off w).1.getrs = ((p.retreive).1).getrs ∧
      (p.Seek off w).1.getr = ((p.retreive).1).getr ∧
      (p.Seek off w).1.r = ((p.retreive).1).r ∧ (p.Seek off w).1.bad = ((p.retreive).1).bad ∧
      (p.Seek off w).1.loaded = ((p.retreive).1).loaded ∧
      (p.Seek off w).2.2.2 = (p.retreive).2) := by
  by_cases hl : p.loaded
  · left
    have hpe : (if p.loaded then (p, ([] : List Event)) else p.retreive) = (p, []) := by
      simp [hl]
    refine ⟨hl, ?_⟩
    simp only [Postpone.Seek, hpe]
    split
    · exact ⟨rfl, rfl, rfl, rfl, rfl, rfl⟩
    · split
      · exact ⟨rfl, rfl, rfl, rfl, rfl, rfl⟩
      · exact ⟨rfl, rfl, rfl, rfl, rfl, rfl⟩
  · right
    have hpe : (if p.loaded then (p, ([] : List Event)) else p.retreive) = p.retreive := by
      simp [hl]
    simp only [Postpone.Seek, hpe]
    split
    · exact ⟨rfl, rfl, rfl, rfl, rfl, rfl⟩
    · split
      · exact ⟨rfl, rfl, rfl, rfl, rfl, rfl⟩
      · exact ⟨rfl, rfl, rfl, rfl, rfl, rfl⟩

lemma step_cases (p : Postpone) (op : Op) :
    (p.loaded = true ∧ ((p.step op).1).getrs = p.getrs ∧ ((p.step op).1).getr = p.getr ∧
      ((p.step op).1).r = p.r ∧ ((p.step op).1).bad = p.bad ∧
      ((p.step op).1).loaded = p.loaded ∧ (p.step op).2 = []) ∨
    (((p.step op).1).getrs = ((p.retreive).1).getrs ∧
      ((p.step op).1).getr = ((p.retreive).1).getr ∧
      ((p.step op).1).r = ((p.retreive).1).r ∧ ((p.step op).1).bad = ((p.retreive).1).bad ∧
      ((p.step op).1).loaded = ((p.retreive).1).loaded ∧ (p.step op).2 = (p.retreive).2) := by
  cases op with
  | read n => exact Read_cases p n
  | seek off w => exact Seek_cases p off w
  | load => exact Or.inr ⟨rfl, rfl, rfl, rfl, rfl, rfl⟩

lemma step_loaded (p : Postpone) (op : Op) : ((p.step op).1).loaded = true := by
  rcases step_cases p op with ⟨hl, _, _, _, _, h6, _⟩ | ⟨_, _, _, _, h5, _⟩
  · rw [h6]; exact hl
  · rw [h5]; exact retreive_loaded p

lemma step_bad_mono (p : Postpone) (op : Op) (h : p.bad = true) :
    ((p.step op).1).bad = true := by
  rcases step_cases p op with ⟨_, _, _, _, h5, _, _⟩ | ⟨_, _, _, h5, _, _⟩
  · rw [h5]; exact h
  · rw [h5]
    rcases retreive_bad p with hb | hb
    · exact hb
    · rw [hb]; exact h

lemma phi_congr {a b : Postpone} (h1 : a.getrs = b.getrs) (h2 : a.getr = b.getr) :
    factoryPotential a = factoryPotential b := by
  simp [factoryPotential, h1, h2]

lemma step_phi (p : Postpone) (op : Op) :
    countInvokes ((p.step op).2) + factoryPotential ((p.step op).1) ≤ factoryPotential p := by
  rcases step_cases p op with ⟨_, h2, h3, _, _, _, h7⟩ | ⟨h2, h3, _, _, _, h7⟩
  · rw [h7, phi_congr h2 h3, countInvokes_nil]
    omega
  · rw [h7, phi_congr h2 h3]
    exact retreive_phi p

lemma step_noclose (p : Postpone) (op : Op) (hg : p.getr = none) (hr : p.r = none) :
    countClose ((p.step op).2) = 0 ∧ ((p.step op).1).getr = none ∧
      ((p.step op).1).r = none := by
  rcases step_cases p op with ⟨_, _, h3, h4, _, _, h7⟩ | ⟨_, h3, h4, _, _, h7⟩
  · rw [h7, h3, h4]
    exact ⟨countClose_nil, hg, hr⟩
  · rw [h7, h3, h4]
    exact retreive_noclose p hg hr

lemma runOps_fst (p : Postpone) (op : Op) (ops : List Op) :
    (runOps p (op :: ops)).1 = (runOps ((p.step op).1) ops).1 := rfl

lemma runOps_snd (p : Postpone) (op : Op) (ops : List Op) :
    (runOps p (op :: ops)).2 = (p.step op).2 ++ (runOps ((p.step op).1) ops).2 := rfl

lemma runOps_loaded (p : Postpone) (ops : List Op) (h : p.loaded = true) :
    ((runOps p ops).1).loaded = true := by
  induction ops generalizing p with
  | nil => exact h
  | cons op ops ih =>
      rw [runOps_fst]
      exact ih ((p.step op).1) (step_loaded p op)

lemma runOps_bad_mono (p : Postpone) (ops : List Op) (h : p.bad = true) :
    ((runOps p ops).1).bad = true := by
  induction ops generalizing p with
  | nil => exact h
  | cons op ops ih =>
      rw [runOps_fst]
      exact ih ((p.step op).1) (step_bad_mono p op h)

lemma runOps_phi (p : Postpone) (ops : List Op) :
    countInvokes ((runOps p ops).2) ≤ factoryPotential p := by
  induction ops generalizing p with
  | nil => simp [runOps, countInvokes_nil]
  | cons op ops ih =>
      rw [runOps_snd, countInvokes_append]
      have h1 := step_phi p op
      have h2 := ih ((p.step op).1)
      omega

lemma runOps_noclose (p : Postpone) (ops : List Op) (hg : p.getr = none) (hr : p.r = none) :
    countClose ((runOps p ops).2) = 0 := by
  induction ops generalizing p with
  | nil => exact countClose_nil
  | cons op ops ih =>
      rw [runOps_snd, countClose_append]
      obtain ⟨h1, h2, h3⟩ := step_noclose p op hg hr
      rw [h1, ih ((p.step op).1) h2 h3]

lemma step_invokeGetrs_clears (p : Postpone) (op : Op)
    (h : Event.invokeGetrs ∈ (p.step op).2) : ((p.step op).1).getrs = none := by
  rcases step_cases p op with ⟨_, _, _, _, _, _, h7⟩ | ⟨h2, _, _, _, _, _⟩
  · rw [h7] at h
    simp at h
  · rw [h2]
    exact retreive_getrs_none p

lemma step_invokeGetr_clears (p : Postpone) (op : Op)
    (h : Event.invokeGetr ∈ (p.step op).2) : ((p.step op).1).getr = none := by
  rcases step_cases p op with ⟨_, _, _, _, _, _, h7⟩ | ⟨_, h3, _, _, _, h7⟩
  · rw [h7] at h
    simp at h
  · rw [h3]
    rw [h7] at h
    exact retreive_invokeGetr_clears p h

/-! ### The claims -/

/-- Claim C5: for every handle from any of the constructor shapes, Loaded is
false immediately after construction, is true after any one call to Read,
Seek, or Load (the acquired flag is set unconditionally as the last step of
acquisition, even if it failed), and never reverts to false under any
subsequent sequence of operations. -/
theorem loaded_lifecycle :
    (∀ (f : Option RS × Option GoError) (c : Bool), (NewFunc f c).Loaded = false) ∧
    (∀ (g : Option Src × Option GoError) (c : Bool), (NewFuncPre g c).Loaded = false) ∧
    (∀ (r : Option Src) (c : Bool), (NewReader r c).Loaded = false) ∧
    (∀ (x : Except GoError RS), (NewFile x).Loaded = false) ∧
    (∀ (y : Except GoError Src), (NewFilePre y).Loaded = false) ∧
    (∀ (p : Postpone) (op : Op), ((p.step op).1).Loaded = true) ∧
    (∀ (p : Postpone) (ops : List Op), p.Loaded = true → ((runOps p ops).1).Loaded = true) := by
  refine ⟨fun f c => rfl, fun g c => rfl, fun r c => rfl, fun x => rfl, fun y => rfl,
    fun p op => step_loaded p op, fun p ops h => runOps_loaded p ops h⟩

/-- Witness for loaded_lifecycle: an already-acquired handle stays acquired
across a further operation. -/
theorem loaded_lifecycle_witness :
    ((runOps ⟨none, none, none, none, none, true, false, false⟩ [Op.load]).1).Loaded = true :=
  loaded_lifecycle.2.2.2.2.2.2 ⟨none, none, none, none, none, true, false, false⟩ [Op.load] rfl

/-- Claim C6: a handle whose acquisition left it failed short-circuits every
subsequent Read and Seek to the zero result plus the remembered error,
leaving the state (hence the acquired stream) untouched, writing nothing to
the caller's buffer, performing no further acquisition events; and the
failed flag never becomes false again under any sequence of operations. -/
theorem failed_handle_short_circuits :
    (∀ (p : Postpone) (n : Nat), p.loaded = true → p.bad = true →
      p.Read n = (p, [], p.err, [])) ∧
    (∀ (p : Postpone) (off : Int) (w : Nat), p.loaded = true → p.bad = true →
      p.Seek off w = (p, 0, p.err, [])) ∧
    (∀ (p : Postpone) (ops : List Op), p.bad = true → ((runOps p ops).1).bad = true) := by
  refine ⟨fun p n hl hb => ?_, fun p off w hl hb => ?_,
    fun p ops h => runOps_bad_mono p ops h⟩
  · have hpe : (if p.loaded then (p, ([] : List Event)) else p.retreive) = (p, []) := by
      simp [hl]
    simp only [Postpone.Read, hpe]
    simp [hb]
  · have hpe : (if p.loaded then (p, ([] : List Event)) else p.retreive) = (p, []) := by
      simp [hl]
    simp only [Postpone.Seek, hpe]
    simp [hb]

/-- Witness for failed_handle_short_circuits on a concrete failed handle. -/
theorem failed_handle_short_circuits_witness :
    (⟨none, none, none, none, some (GoError.msg "gone"), true, false, true⟩ : Postpone).Read 4
      = (⟨none, none, none, none, some (GoError.msg "gone"), true, false, true⟩, [],
         some (GoError.msg "gone"), []) :=
  failed_handle_short_circuits.1
    ⟨none, none, none, none, some (GoError.msg "gone"), true, false, true⟩ 4 rfl rfl

/-- Claim C2: on a successfully acquired handle with no remembered
acquisition error, when the underlying stream's read reports end-of-data,
Read returns exactly that end-of-data value, not a wrapped or merged
substitute (the merge of a live error with a nil remembered error is the
live error itself). -/
theorem read_propagates_eof_unchanged (p : Postpone) (n : Nat) (rs : RS)
    (hl : p.loaded = true) (hb : p.bad = false) (he : p.err = none)
    (hrs : p.rs = some rs) (heof : (RS.Read rs n).2.1 = some GoError.eof) :
    (p.Read n).2.2.1 = some GoError.eof := by
  have hpe : (if p.loaded then (p, ([] : List Event)) else p.retreive) = (p, []) := by
    simp [hl]
  simp only [Postpone.Read, hpe]
  simp [hb, hrs, he, heof, mergeErr]

/-- Witness for read_propagates_eof_unchanged: a drained in-memory stream
reports EOF and the handle returns it unchanged. -/
theorem read_propagates_eof_unchanged_witness :
    ((⟨none, some (RS.mem [] 0), none, none, none, true, false, false⟩ : Postpone).Read 1).2.2.1
      = some GoError.eof :=
  read_propagates_eof_unchanged
    ⟨none, some (RS.mem [] 0), none, none, none, true, false, false⟩ 1 (RS.mem [] 0)
    rfl rfl rfl rfl (by decide)

/-- Claim C7: a factory field is invoked at most once across any sequence of
Read, Seek, and Load calls on a handle built by NewFunc or NewFuncPre, and
any step that invokes a factory leaves the corresponding factory field
cleared (the reference is discarded immediately after the invocation). -/
theorem factory_invoked_at_most_once :
    (∀ (f : Option RS × Option GoError) (c : Bool) (ops : List Op),
      countInvokes ((runOps (NewFunc f c) ops).2) ≤ 1) ∧
    (∀ (g : Option Src × Option GoError) (c : Bool) (ops : List Op),
      countInvokes ((runOps (NewFuncPre g c) ops).2) ≤ 1) ∧
    (∀ (p : Postpone) (op : Op), Event.invokeGetrs ∈ (p.step op).2 →
      ((p.step op).1).getrs = none) ∧
    (∀ (p : Postpone) (op : Op), Event.invokeGetr ∈ (p.step op).2 →
      ((p.step op).1).getr = none) := by
  refine ⟨fun f c ops => ?_, fun g c ops => ?_,
    fun p op h => step_invokeGetrs_clears p op h,
    fun p op h => step_invokeGetr_clears p op h⟩
  · have h := runOps_phi (NewFunc f c) ops
    simpa [factoryPotential, NewFunc] using h
  · have h := runOps_phi (NewFuncPre g c) ops
    simpa [factoryPotential, NewFuncPre] using h

/-- Witness for factory_invoked_at_most_once: a double Load invokes the
seekable factory only once and the first Load clears the factory field. -/
theorem factory_invoked_at_most_once_witness :
    countInvokes ((runOps (NewFunc (some (RS.mem [1] 0), none) false)
      [Op.load, Op.load]).2) ≤ 1 ∧
    (((NewFunc (some (RS.mem [1] 0), none) false).step Op.load).1).getrs = none :=
  ⟨factory_invoked_at_most_once.1 (some (RS.mem [1] 0), none) false [Op.load, Op.load],
   factory_invoked_at_most_once.2.2.1 (NewFunc (some (RS.mem [1] 0), none) false) Op.load
     (by decide)⟩

/-- Claim C10: a handle built on a seekable-stream factory never invokes any
close capability, whatever the close flag was and whatever operations run
(the flag is stored on the handle but the open-on-demand acquisition branch
never consults it). -/
theorem open_on_demand_never_closes :
    ∀ (f : Option RS × Option GoError) (c : Bool) (ops : List Op),
      countClose ((runOps (NewFunc f c) ops).2) = 0 ∧ (NewFunc f c).c = c :=
  fun f c ops => ⟨runOps_noclose (NewFunc f c) ops rfl rfl, rfl⟩

/-- Claim C9: when the drain of a preload source hits an error partway, the
partial data already delivered is kept and wrapped in the in-memory
seekable adapter, the drain error is remembered, the handle is not marked
failed, and a subsequent Read serves bytes from the partial buffer while
returning the live error of the buffer read merged with the remembered
drain error. -/
theorem drain_error_keeps_partial_buffer
    (chunks : List (List Nat)) (e : GoError) (cl cflag : Bool) (n : Nat) :
    ((((NewFuncPre (some ⟨chunks, some e, cl⟩, none) cflag).retreive).1).bad = false ∧
      (((NewFuncPre (some ⟨chunks, some e, cl⟩, none) cflag).retreive).1).err = some e ∧
      (((NewFuncPre (some ⟨chunks, some e, cl⟩, none) cflag).retreive).1).rs =
        some (RS.mem chunks.flatten 0)) ∧
    ((((NewReader (some ⟨chunks, some e, cl⟩) cflag).retreive).1).bad = false ∧
      (((NewReader (some ⟨chunks, some e, cl⟩) cflag).retreive).1).err = some e ∧
      (((NewReader (some ⟨chunks, some e, cl⟩) cflag).retreive).1).rs =
        some (RS.mem chunks.flatten 0)) ∧
    ((((NewFuncPre (some ⟨chunks, some e, cl⟩, none) cflag).retreive).1).Read n).2.1 =
      (RS.Read (RS.mem chunks.flatten 0) n).1 ∧
    ((((NewFuncPre (some ⟨chunks, some e, cl⟩, none) cflag).retreive).1).Read n).2.2.1 =
      mergeErr ((RS.Read (RS.mem chunks.flatten 0) n).2.1) (some e) := by
  refine ⟨⟨rfl, rfl, rfl⟩, ⟨rfl, rfl, rfl⟩, rfl, rfl⟩

/-- Claim C3, counterexample: a seekable factory returning a non-nil stream
together with a non-nil error does not mark the handle failed — the
acquisition branch checks only whether the returned stream is nil — so the
claim's "either condition marks the handle failed" is false as stated. -/
theorem factory_error_with_stream_not_failed :
    (((NewFunc (some (RS.mem [] 0), some (GoError.msg "boom")) false).retreive).1).bad
      = false := rfl

/-- Claim C3 as amended: acquisition from a seekable factory always remembers
the factory's error, marks the handle failed exactly when the returned
stream is nil, and a failed handle's subsequent Read and Seek return the
zero result together with the remembered error. -/
theorem seekable_factory_failure_characterized
    (ro : Option RS) (eo : Option GoError) (c : Bool) (n : Nat) (off : Int) (w : Nat) :
    (((NewFunc (ro, eo) c).retreive).1).err = eo ∧
    (((NewFunc (ro, eo) c).retreive).1).bad = ro.isNone ∧
    (ro = none →
      (((NewFunc (ro, eo) c).retreive).1).Read n
        = ((((NewFunc (ro, eo) c).retreive).1), [], eo, []) ∧
      (((NewFunc (ro, eo) c).retreive).1).Seek off w
        = ((((NewFunc (ro, eo) c).retreive).1), 0, eo, [])) := by
  refine ⟨rfl, ?_, ?_⟩
  · cases ro <;> rfl
  · rintro rfl
    exact ⟨rfl, rfl⟩

/-- Witness for seekable_factory_failure_characterized: a factory failing
with an explicit error yields a failed handle replaying that error. -/
theorem seekable_factory_failure_witness :
    (((NewFunc ((none : Option RS), some (GoError.msg "open failed")) false).retreive).1).err
      = some (GoError.msg "open failed") ∧
    (((NewFunc ((none : Option RS), some (GoError.msg "open failed")) false).retreive).1).Read 3
      = ((((NewFunc ((none : Option RS), some (GoError.msg "open failed")) false).retreive).1),
         [], some (GoError.msg "open failed"), []) :=
  ⟨(seekable_factory_failure_characterized none (some (GoError.msg "open failed"))
      false 3 0 0).1,
   ((seekable_factory_failure_characterized none (some (GoError.msg "open failed"))
      false 3 0 0).2.2 rfl).1⟩

/-- Claim C4, counterexample: with a seekable factory returning a nil stream
and a nil error, the handle is marked failed but the remembered error is
nil, so Read returns a nil error — not a non-nil generic "no resource
available"-style error as the claim states. -/
theorem nil_nil_factory_read_error_is_nil :
    ((((NewFunc ((none : Option RS), (none : Option GoError)) false).retreive).1).Read 5).2.2.1
      = none ∧
    (((NewFunc ((none : Option RS), (none : Option GoError)) false).retreive).1).bad = true :=
  ⟨rfl, rfl⟩

/-- Claim C4 as amended: with a seekable factory returning a nil stream and a
nil error, the handle is marked failed on first use and every subsequent
Read and Seek consistently returns the zero result together with a nil
error (no "no resource available" error value exists in the code). -/
theorem nil_nil_factory_behavior (c : Bool) (n : Nat) (off : Int) (w : Nat) :
    (((NewFunc (none, none) c).retreive).1).bad = true ∧
    (((NewFunc (none, none) c).retreive).1).err = none ∧
    (((NewFunc (none, none) c).retreive).1).Read n
      = ((((NewFunc (none, none) c).retreive).1), [], none, []) ∧
    (((NewFunc (none, none) c).retreive).1).Seek off w
      = ((((NewFunc (none, none) c).retreive).1), 0, none, []) :=
  ⟨rfl, rfl, rfl, rfl⟩

/-- Claim C1, code-bug evaluation: Load is not idempotent after acquisition.
On a handle built on a seekable factory that returned a valid stream, the
first Load acquires the stream and leaves the failed flag false; a second
Load re-runs the whole acquisition routine (Load has no acquired-flag
guard), falls into the direct-reader branch with a nil reader, and sets the
failed flag — the state changes. -/
theorem load_after_load_changes_state :
    (((NewFunc (some (RS.mem [42] 0), none) false).Load).1).bad = false ∧
    (((NewFunc (some (RS.mem [42] 0), none) false).Load).1).loaded = true ∧
    (((((NewFunc (some (RS.mem [42] 0), none) false).Load).1).Load).1).bad = true := by
  decide

/-- Claim C8, code-bug evaluation: for a preload handle over a closeable
source with the close flag set, the first operation drains the source and
then closes it exactly once (exactly one close event, ordered after the
drain event); but a second explicit Load on a direct-reader handle
re-drains the retained source and closes it again — two close invocations
in total, contradicting "exactly once".  With the flag clear no close ever
happens on the same sequence. -/
theorem preload_close_double_load_closes_twice :
    ((NewReader (some ⟨[[7]], none, true⟩) true).Load).2
      = [Event.drain [7] none, Event.closeSrc] ∧
    countClose ((runOps (NewReader (some ⟨[[7]], none, true⟩) true) [Op.load, Op.load]).2) = 2 ∧
    countClose ((runOps (NewReader (some ⟨[[7]], none, true⟩) false) [Op.load, Op.load]).2)
      = 0 := by
  decide
